import Mathlib

/-!
Verification development for the global-entry-scraper program (src/main.py).

The Python source is shallowly embedded: the remote HTTP service is a
function from request parameters to a response value, `time.sleep` and the
order of remote queries are recorded in an event trace, Python exceptions
become `Except`, Python `datetime` values become a five-field structure
ordered chronologically, and Python dicts become association lists with
CPython insertion-order update semantics.
-/

/-- A parsed `datetime` value (year, month, day, hour, minute), as produced
by `datetime.strptime` with the formats used in the program. -/
structure DateTime where
  year : Nat
  month : Nat
  day : Nat
  hour : Nat
  minute : Nat
deriving DecidableEq, Repr

/-- Injective-on-valid-dates numeric key realizing Python datetime's
field-lexicographic (chronological) comparison. -/
def DateTime.key (t : DateTime) : Nat :=
  (((t.year * 13 + t.month) * 32 + t.day) * 24 + t.hour) * 60 + t.minute

/-- Field ranges guaranteed by `datetime.strptime`: these make `key`
order-isomorphic to the chronological (lexicographic) order. -/
def DateTime.Valid (t : DateTime) : Prop :=
  1 ≤ t.month ∧ t.month ≤ 12 ∧ 1 ≤ t.day ∧ t.day ≤ 31 ∧ t.hour ≤ 23 ∧ t.minute ≤ 59

/-- Chronological strict order, spelled out field-lexicographically exactly
as Python compares datetime values. -/
def DateTime.ChronLt (a b : DateTime) : Prop :=
  a.year < b.year ∨ (a.year = b.year ∧
    (a.month < b.month ∨ (a.month = b.month ∧
      (a.day < b.day ∨ (a.day = b.day ∧
        (a.hour < b.hour ∨ (a.hour = b.hour ∧ a.minute < b.minute)))))))

/-- The order used for `sorted(...)`: comparison by chronological key. -/
def DateTime.leKey (a b : DateTime) : Prop := a.key ≤ b.key

instance : DecidableRel DateTime.leKey := fun a b => Nat.decLe a.key b.key

instance : IsTotal DateTime DateTime.leKey := ⟨fun a b => Nat.le_total a.key b.key⟩

instance : IsTrans DateTime DateTime.leKey := ⟨fun _ _ _ => Nat.le_trans⟩

/-- A raw record of the timeslot endpoint; only its "startTimestamp" field
is read by the program. -/
structure RawTimeslot where
  startTimestamp : String
deriving DecidableEq, Repr

/-- An HTTP response of the timeslot endpoint: a status code and the JSON
body (a list of raw timeslot records). -/
structure HttpResp where
  status_code : Nat
  body : List RawTimeslot
deriving DecidableEq, Repr

/-- The exceptions the program can raise (Python ValueError / KeyError),
carrying the same diagnostic data as the corresponding messages. -/
inductive ScrapeError where
  | remoteService (status_code : Nat) (body : List RawTimeslot)
  | malformedTimeslot (s : String)
  | malformedDate (s : String)
  | keyError (location_id : Nat)
deriving DecidableEq, Repr

/-- Observable effects of one polling round: a remote fetch for a location
id, and a jittered sleep. -/
inductive Event where
  | fetch (location_id : Nat)
  | sleep
deriving DecidableEq, Repr

/-- Value of a decimal digit character, when it is one. -/
def digitVal (c : Char) : Option Nat :=
  if c.isDigit then some (c.toNat - 48) else none

/-- Day count of a month, with the Gregorian leap-year rule, as validated
by Python `datetime`. -/
def daysInMonth (y m : Nat) : Nat :=
  if m = 2 then
    if y % 4 = 0 ∧ (y % 100 ≠ 0 ∨ y % 400 = 0) then 29 else 28
  else if m = 4 ∨ m = 6 ∨ m = 9 ∨ m = 11 then 30
  else 31

/-- Build a datetime after the range validation `datetime.__new__` performs. -/
def mkDateTime (y m d h n : Nat) : Option DateTime :=
  if 1 ≤ y ∧ 1 ≤ m ∧ m ≤ 12 ∧ 1 ≤ d ∧ d ≤ daysInMonth y m ∧ h ≤ 23 ∧ n ≤ 59 then
    some ⟨y, m, d, h, n⟩
  else none

/-- A numeric field of CPython strptime (%m, %H, %M): one or two decimal
digits, taken greedily, returning the value and the remaining characters.
Greediness is equivalent to the regex's left-to-right alternation here
because every field is followed by a non-digit separator or the end of the
string, so a third digit in a row can never be rescued by backtracking. -/
def fieldDigits : List Char → Option (Nat × List Char)
  | c1 :: c2 :: rest =>
    match digitVal c1, digitVal c2 with
    | some a, some b => some (a * 10 + b, rest)
    | some a, none => some (a, c2 :: rest)
    | none, _ => none
  | [c1] =>
    match digitVal c1 with
    | some a => some (a, [])
    | none => none
  | [] => none

/-- A day field of CPython strptime (%d): one or two digits, or — as the
pattern "3[0-1]|[1-2]\d|0[1-9]|[1-9]| [1-9]" also allows — a single space
followed by one digit. Out-of-range values (0, or past the month's end)
are rejected afterwards by the datetime constructor, exactly as the parts
of the pattern the wider digit set here over-approximates. -/
def dayField : List Char → Option (Nat × List Char)
  | ' ' :: c :: rest =>
    match digitVal c with
    | some a => some (a, rest)
    | none => none
  | l => fieldDigits l

/-- The shape "%Y-%m-%dT%H:%M" as CPython strptime matches it: exactly four
year digits, one- or two-digit month, day, hour and minute fields (the day
possibly space-padded), literal separators with the T matched
case-insensitively (strptime compiles its pattern with IGNORECASE), and no
characters left over. Returns the raw field values. -/
def parseShape (l : List Char) : Option (Nat × Nat × Nat × Nat × Nat) :=
  match l with
  | y1 :: y2 :: y3 :: y4 :: '-' :: rest =>
    match digitVal y1, digitVal y2, digitVal y3, digitVal y4 with
    | some a, some b, some c, some d =>
      match fieldDigits rest with
      | some (m, '-' :: rest2) =>
        match dayField rest2 with
        | some (dd, tc :: rest3) =>
          if tc = 'T' ∨ tc = 't' then
            match fieldDigits rest3 with
            | some (h, ':' :: rest4) =>
              match fieldDigits rest4 with
              | some (mi, []) =>
                some (a * 1000 + b * 100 + c * 10 + d, m, dd, h, mi)
              | _ => none
            | _ => none
          else none
        | _ => none
      | _ => none
    | _, _, _, _ => none
  | _ => none

/-- The shape "%Y-%m-%d" as CPython strptime matches it: four year digits,
one- or two-digit month, one- or two-digit (or space-padded) day, nothing
left over. Returns the raw field values. -/
def parseShapeDate (l : List Char) : Option (Nat × Nat × Nat) :=
  match l with
  | y1 :: y2 :: y3 :: y4 :: '-' :: rest =>
    match digitVal y1, digitVal y2, digitVal y3, digitVal y4 with
    | some a, some b, some c, some d =>
      match fieldDigits rest with
      | some (m, '-' :: rest2) =>
        match dayField rest2 with
        | some (dd, []) => some (a * 1000 + b * 100 + c * 10 + d, m, dd)
        | _ => none
      | _ => none
    | _, _, _, _ => none
  | _ => none

/-- `datetime.strptime(s, "%Y-%m-%dT%H:%M")`: match the shape (unpadded
fields allowed, as CPython's field patterns accept), then build the
datetime with its range validation; `none` models the ValueError either
step raises. -/
def strptimeDateTime (s : String) : Option DateTime :=
  match parseShape s.data with
  | some (y, m, d, h, n) => mkDateTime y m d h n
  | none => none

/-- `datetime.strptime(s, "%Y-%m-%d")`: match the date shape (unpadded
fields allowed), then build the datetime at midnight with its range
validation; `none` models the ValueError either step raises. -/
def strptimeDate (s : String) : Option DateTime :=
  match parseShapeDate s.data with
  | some (y, m, d) => mkDateTime y m d 0 0
  | none => none

/-- src/main.py line 16: the constant base delay, in seconds. -/
def REQUEST_DELAY : ℚ := 2

/-- src/main.py `delay()`: the jittered delay, as a function of the value
`r` drawn by `random.randint(-10, 10)`. -/
def delay (r : ℤ) : ℚ :=
  REQUEST_DELAY + (r : ℚ) / (10 * REQUEST_DELAY / 2)

/-- src/main.py `make_request`: return the JSON body on a 200 response,
raise ValueError carrying status and body otherwise. -/
def make_request (resp : HttpResp) : Except ScrapeError (List RawTimeslot) :=
  if resp.status_code ≠ 200 then
    .error (.remoteService resp.status_code resp.body)
  else .ok resp.body

/-- src/main.py `parse_timeslot_datetime`: parse one record's
startTimestamp, raising ValueError when it does not parse. -/
def parse_timeslot_datetime (timeslot : RawTimeslot) : Except ScrapeError DateTime :=
  match strptimeDateTime timeslot.startTimestamp with
  | some t => .ok t
  | none => .error (.malformedTimeslot timeslot.startTimestamp)

/-- The list comprehension `[parse_timeslot_datetime(t) for t in resp_dict]`:
left to right, the first bad record raises. -/
def parseTimeslots : List RawTimeslot → Except ScrapeError (List DateTime)
  | [] => .ok []
  | rec :: rest =>
    match parse_timeslot_datetime rec with
    | .error e => .error e
    | .ok t =>
      match parseTimeslots rest with
      | .error e => .error e
      | .ok ts => .ok (t :: ts)

/-- Python `sorted(list(set(l)))`: the distinct elements in ascending
chronological order. -/
def sortedDedup (l : List DateTime) : List DateTime :=
  List.insertionSort DateTime.leKey l.dedup

/-- src/main.py `get_timeslots_for_location_id`, with the remote response
for this location's URL passed as a value: parse each record, dedup, sort. -/
def get_timeslots_for_location_id (resp : HttpResp) : Except ScrapeError (List DateTime) :=
  match make_request resp with
  | .error e => .error e
  | .ok body =>
    match parseTimeslots body with
    | .error e => .error e
    | .ok timeslots => .ok (sortedDedup timeslots)

/-- The filtering comprehension in `get_timeslots_for_location_ids`:
keep a timeslot when `before is None or timeslot < strptime(before)`.
The cutoff string is parsed per element, so an empty list never parses it. -/
def filterBefore : Option String → List DateTime → Except ScrapeError (List DateTime)
  | _, [] => .ok []
  | none, l => .ok l
  | some b, t :: rest =>
    match strptimeDate b with
    | none => .error (.malformedDate b)
    | some cutoff =>
      match filterBefore (some b) rest with
      | .error e => .error e
      | .ok r => .ok (if t.key < cutoff.key then t :: r else r)

/-- One iteration body of the loop in `get_timeslots_for_location_ids`:
fetch one location's timeslots and filter them against the cutoff. -/
def fetchFiltered (resp : HttpResp) (before : Option String) :
    Except ScrapeError (List DateTime) :=
  match get_timeslots_for_location_id resp with
  | .error e => .error e
  | .ok base => filterBefore before base

/-- CPython dict assignment `d[k] = v`: update in place when the key is
present (keeping its insertion position), append otherwise. -/
def dictSet (k : Nat) (v : List DateTime) :
    List (Nat × List DateTime) → List (Nat × List DateTime)
  | [] => [(k, v)]
  | (k0, v0) :: rest =>
    if k0 = k then (k, v) :: rest else (k0, v0) :: dictSet k v rest

/-- The loop of `get_timeslots_for_location_ids`, with accumulated dict and
event trace: fetch, store, then sleep, for each location id in order. -/
def getTimeslotsLoop (remote : Nat → Nat → HttpResp) (before : Option String)
    (limit : Nat) : List Nat → List (Nat × List DateTime) → List Event →
    Except ScrapeError (List (Nat × List DateTime) × List Event)
  | [], acc, tr => .ok (acc, tr)
  | location_id :: rest, acc, tr =>
    match fetchFiltered (remote location_id limit) before with
    | .error e => .error e
    | .ok timeslots =>
      getTimeslotsLoop remote before limit rest (dictSet location_id timeslots acc)
        (tr ++ [Event.fetch location_id, Event.sleep])

/-- src/main.py `get_timeslots_for_location_ids`, with the remote service
embedded as a function from (location id, limit) to its HTTP response.
Returns the dict together with the trace of fetch and sleep events. -/
def get_timeslots_for_location_ids (remote : Nat → Nat → HttpResp)
    (location_ids : List Nat) (before : Option String) (limit : Nat) :
    Except ScrapeError (List (Nat × List DateTime) × List Event) :=
  getTimeslotsLoop remote before limit location_ids [] []

/-- Python `any(val for val in ats.values())`: some value is a non-empty
list. -/
def anyNonEmpty (ats : List (Nat × List DateTime)) : Bool :=
  ats.any (fun p => !p.2.isEmpty)

/-- The `while keep_running` loop of `__main__` (src/main.py lines 135-141),
with the remote service allowed to answer differently on each round
(`remoteAt i` is the service during round index `i`). Returns `some
(rounds performed, final ats)` when the loop stops within `fuel` rounds,
`none` when it is still running after `fuel` rounds. -/
def pollRounds (remoteAt : Nat → Nat → Nat → HttpResp) (location_ids : List Nat)
    (before : Option String) (limit : Nat) :
    Nat → Nat → Except ScrapeError (Option (Nat × List (Nat × List DateTime)))
  | 0, _ => .ok none
  | fuel + 1, i =>
    match get_timeslots_for_location_ids (remoteAt i) location_ids before limit with
    | .error e => .error e
    | .ok (ats, _) =>
      if anyNonEmpty ats then .ok (some (i + 1, ats))
      else pollRounds remoteAt location_ids before limit fuel (i + 1)

/-- Month names as produced by strftime's %B. -/
def monthName : Nat → String
  | 1 => "January"
  | 2 => "February"
  | 3 => "March"
  | 4 => "April"
  | 5 => "May"
  | 6 => "June"
  | 7 => "July"
  | 8 => "August"
  | 9 => "September"
  | 10 => "October"
  | 11 => "November"
  | 12 => "December"
  | _ => ""

/-- Zeller's congruence: 0 = Saturday, 1 = Sunday, 2 = Monday, ... -/
def zeller (y m d : Nat) : Nat :=
  let m2 := if m ≤ 2 then m + 12 else m
  let y2 := if m ≤ 2 then y - 1 else y
  let K := y2 % 100
  let J := y2 / 100
  (d + 13 * (m2 + 1) / 5 + K + K / 4 + J / 4 + 5 * J) % 7

/-- Weekday abbreviation as produced by strftime's %a. -/
def weekdayAbbrev (t : DateTime) : String :=
  match zeller t.year t.month t.day with
  | 0 => "Sat"
  | 1 => "Sun"
  | 2 => "Mon"
  | 3 => "Tue"
  | 4 => "Wed"
  | 5 => "Thu"
  | _ => "Fri"

/-- Two-digit zero padding, as strftime's %d, %I, %M produce. -/
def pad2 (n : Nat) : String :=
  if n < 10 then "0" ++ Nat.repr n else Nat.repr n

/-- Hour on the 12-hour clock, as strftime's %I (00:xx shows as 12:xx). -/
def hour12 (h : Nat) : Nat :=
  if h % 12 = 0 then 12 else h % 12

/-- AM/PM marker, as strftime's %p. -/
def ampm (h : Nat) : String :=
  if h < 12 then "AM" else "PM"

/-- `t.strftime("%B %d, %Y (%a) @ %I:%M %p")`. -/
def strftimeLine (t : DateTime) : String :=
  monthName t.month ++ " " ++ pad2 t.day ++ ", " ++ Nat.repr t.year ++ " (" ++
    weekdayAbbrev t ++ ") @ " ++ pad2 (hour12 t.hour) ++ ":" ++ pad2 t.minute ++
    " " ++ ampm t.hour

/-- Python `str.replace(" 0", " ")` on the character list: scan left to
right, replace every non-overlapping occurrence. -/
def replaceSpaceZeroList : List Char → List Char
  | ' ' :: '0' :: rest => ' ' :: replaceSpaceZeroList rest
  | c :: rest => c :: replaceSpaceZeroList rest
  | [] => []

/-- Python `s.replace(" 0", " ")`. -/
def replaceSpaceZero (s : String) : String :=
  ⟨replaceSpaceZeroList s.data⟩

/-- One indented timeslot line of the notification
(src/main.py lines 82-84). -/
def timeslotLine (t : DateTime) : String :=
  "    " ++ replaceSpaceZero (strftimeLine t)

/-- The fixed banner line of every notification. -/
def bannerLine : String := "✈️ Global Entry Timeslot Bot ✈️"

/-- Python dict lookup `mapping[k]` made total: `none` is a KeyError. -/
def lookupKey (k : Nat) : List (Nat × String) → Option String
  | [] => none
  | (k0, v0) :: rest => if k0 = k then some v0 else lookupKey k rest

/-- One location's text block: the `"<label> (<id>)"` header joined with
the indented timeslot lines. -/
def locationBlock (label : String) (location_id : Nat) (ts : List DateTime) : String :=
  String.intercalate "\n" ((label ++ " (" ++ Nat.repr location_id ++ ")") ::
    ts.map timeslotLine)

/-- The block-building loop of `generate_notification_texts`: one block per
location with a non-empty list, KeyError when such a location is unmapped. -/
def genBlocks (mapping : List (Nat × String)) :
    List (Nat × List DateTime) → Except ScrapeError (List String)
  | [] => .ok []
  | (location_id, ts) :: rest =>
    if ts.length > 0 then
      match lookupKey location_id mapping with
      | none => .error (.keyError location_id)
      | some label =>
        match genBlocks mapping rest with
        | .error e => .error e
        | .ok more => .ok (locationBlock label location_id ts :: more)
    else genBlocks mapping rest

/-- src/main.py `generate_notification_texts`. -/
def generate_notification_texts (mapping : List (Nat × String))
    (all_timeslots : List (Nat × List DateTime)) (silent : Bool) :
    Except ScrapeError (List String) :=
  match genBlocks mapping all_timeslots with
  | .error e => .error e
  | .ok blocks =>
    if (bannerLine :: blocks).length = 1 then
      if silent then .ok []
      else .ok ((bannerLine :: blocks) ++ ["No open timeslots found!"])
    else .ok (bannerLine :: blocks)

/-- The remote service of the end-to-end scenario: round 1 answers every
location with an empty list; round 2 answers location 5446 with the single
record "2024-03-01T09:00" and other locations with an empty list. -/
def scenarioRemote (i : Nat) (location_id : Nat) (_limit : Nat) : HttpResp :=
  if i = 0 then ⟨200, []⟩
  else if location_id = 5446 then ⟨200, [⟨"2024-03-01T09:00"⟩]⟩
  else ⟨200, []⟩

theorem daysInMonth_le {y m : Nat} : daysInMonth y m ≤ 31 := by
  unfold daysInMonth
  split
  · split
    · omega
    · omega
  · split
    · omega
    · omega

theorem DateTime.key_lt_iff_chronLt {a b : DateTime} (ha : a.Valid) (hb : b.Valid) :
    a.key < b.key ↔ DateTime.ChronLt a b := by
  obtain ⟨a1, a2, a3, a4, a5⟩ := a
  obtain ⟨b1, b2, b3, b4, b5⟩ := b
  simp only [DateTime.Valid] at ha hb
  simp only [DateTime.key, DateTime.ChronLt]
  omega

theorem DateTime.key_inj {a b : DateTime} (ha : a.Valid) (hb : b.Valid) :
    a.key = b.key ↔ a = b := by
  obtain ⟨a1, a2, a3, a4, a5⟩ := a
  obtain ⟨b1, b2, b3, b4, b5⟩ := b
  simp only [DateTime.Valid] at ha hb
  simp only [DateTime.key, DateTime.mk.injEq]
  omega

theorem mkDateTime_valid {y m d h n : Nat} {t : DateTime}
    (hp : mkDateTime y m d h n = some t) : t.Valid := by
  unfold mkDateTime at hp
  split at hp
  case isTrue hb =>
    cases hp
    exact ⟨hb.2.1, hb.2.2.1, hb.2.2.2.1, le_trans hb.2.2.2.2.1 daysInMonth_le,
      hb.2.2.2.2.2.1, hb.2.2.2.2.2.2⟩
  case isFalse => cases hp

theorem strptimeDateTime_valid {s : String} {t : DateTime}
    (hp : strptimeDateTime s = some t) : t.Valid := by
  unfold strptimeDateTime at hp
  split at hp
  · exact mkDateTime_valid hp
  · cases hp

theorem strptimeDate_valid {s : String} {t : DateTime}
    (hp : strptimeDate s = some t) : t.Valid := by
  unfold strptimeDate at hp
  split at hp
  · exact mkDateTime_valid hp
  · cases hp

theorem strptimeDate_midnight {s : String} {t : DateTime}
    (hp : strptimeDate s = some t) : t.hour = 0 ∧ t.minute = 0 := by
  unfold strptimeDate at hp
  split at hp
  · unfold mkDateTime at hp
    split at hp
    · cases hp
      exact ⟨rfl, rfl⟩
    · cases hp
  · cases hp

theorem chronLt_irrefl (t : DateTime) : ¬ DateTime.ChronLt t t := by
  simp only [DateTime.ChronLt]
  omega

theorem parse_timeslot_datetime_ok {rec : RawTimeslot} {t : DateTime}
    (h : parse_timeslot_datetime rec = .ok t) :
    strptimeDateTime rec.startTimestamp = some t := by
  unfold parse_timeslot_datetime at h
  split at h
  · cases h
    assumption
  · cases h

theorem parse_timeslot_datetime_not_ok {rec : RawTimeslot}
    (h : ∀ t, parse_timeslot_datetime rec ≠ .ok t) :
    parse_timeslot_datetime rec = .error (.malformedTimeslot rec.startTimestamp) := by
  unfold parse_timeslot_datetime at h ⊢
  split
  case h_1 t ht => exact absurd rfl (ht ▸ h t)
  case h_2 => rfl

theorem parseTimeslots_valid : ∀ {l : List RawTimeslot} {ts : List DateTime},
    parseTimeslots l = .ok ts → ∀ t ∈ ts, t.Valid := by
  intro l
  induction l with
  | nil =>
    intro ts h t ht
    cases h
    cases ht
  | cons rec rest ih =>
    intro ts h t ht
    unfold parseTimeslots at h
    split at h
    · cases h
    case h_2 t0 hp =>
      split at h
      · cases h
      case h_2 ts0 hrest =>
        cases h
        rcases List.mem_cons.mp ht with h0 | h0
        · subst h0
          exact strptimeDateTime_valid (parse_timeslot_datetime_ok hp)
        · exact ih hrest t h0

theorem parseTimeslots_error_of : ∀ {l : List RawTimeslot},
    (∃ rec ∈ l, ∀ t, parse_timeslot_datetime rec ≠ .ok t) →
    ∃ s, parseTimeslots l = .error (.malformedTimeslot s) := by
  intro l
  induction l with
  | nil =>
    rintro ⟨rec, hmem, _⟩
    cases hmem
  | cons rec rest ih =>
    rintro ⟨r, hmem, hbad⟩
    rcases List.mem_cons.mp hmem with h0 | h0
    · subst h0
      exact ⟨r.startTimestamp, by
        unfold parseTimeslots
        rw [parse_timeslot_datetime_not_ok hbad]⟩
    · cases hp : parse_timeslot_datetime rec with
      | error e =>
        have : parse_timeslot_datetime rec =
            .error (.malformedTimeslot rec.startTimestamp) :=
          parse_timeslot_datetime_not_ok (fun t h => by rw [hp] at h; cases h)
        exact ⟨rec.startTimestamp, by unfold parseTimeslots; rw [this]⟩
      | ok t =>
        obtain ⟨s, hs⟩ := ih ⟨r, h0, hbad⟩
        exact ⟨s, by unfold parseTimeslots; rw [hp, hs]⟩

theorem sortedDedup_nodup (l : List DateTime) : (sortedDedup l).Nodup :=
  (List.perm_insertionSort DateTime.leKey l.dedup).symm.nodup (List.nodup_dedup l)

theorem sortedDedup_sorted (l : List DateTime) :
    List.Sorted DateTime.leKey (sortedDedup l) :=
  List.sorted_insertionSort DateTime.leKey l.dedup

theorem sortedDedup_mem {l : List DateTime} {t : DateTime} :
    t ∈ sortedDedup l ↔ t ∈ l := by
  unfold sortedDedup
  rw [List.mem_insertionSort, List.mem_dedup]

theorem make_request_ok {resp : HttpResp} {body : List RawTimeslot}
    (h : make_request resp = .ok body) :
    resp.status_code = 200 ∧ body = resp.body := by
  unfold make_request at h
  split at h
  · cases h
  case isFalse hs =>
    cases h
    exact ⟨by omega, rfl⟩

theorem get_id_ok {resp : HttpResp} {ts : List DateTime}
    (h : get_timeslots_for_location_id resp = .ok ts) :
    resp.status_code = 200 ∧
      ∃ parsed, parseTimeslots resp.body = .ok parsed ∧ ts = sortedDedup parsed := by
  unfold get_timeslots_for_location_id at h
  split at h
  · cases h
  case h_2 body hreq =>
    obtain ⟨hs, hb⟩ := make_request_ok hreq
    split at h
    · cases h
    case h_2 parsed hp =>
      cases h
      exact ⟨hs, parsed, hb ▸ hp, rfl⟩

theorem get_id_mem_valid {resp : HttpResp} {ts : List DateTime}
    (h : get_timeslots_for_location_id resp = .ok ts) :
    ∀ t ∈ ts, t.Valid := by
  obtain ⟨-, parsed, hp, hts⟩ := get_id_ok h
  intro t ht
  exact parseTimeslots_valid hp t (sortedDedup_mem.mp (hts ▸ ht))

theorem filterBefore_none (l : List DateTime) : filterBefore none l = .ok l := by
  cases l <;> rfl

theorem filterBefore_some {b : String} {cutoff : DateTime}
    (hb : strptimeDate b = some cutoff) :
    ∀ l : List DateTime,
      filterBefore (some b) l = .ok (l.filter (fun t => decide (t.key < cutoff.key))) := by
  intro l
  induction l with
  | nil => rfl
  | cons t rest ih =>
    unfold filterBefore
    rw [hb, ih, List.filter_cons]
    by_cases hk : t.key < cutoff.key
    · simp [hk]
    · simp [hk]

theorem fetchFiltered_ok {resp : HttpResp} {before : Option String}
    {ts : List DateTime} (h : fetchFiltered resp before = .ok ts) :
    ∃ base, get_timeslots_for_location_id resp = .ok base ∧
      filterBefore before base = .ok ts := by
  unfold fetchFiltered at h
  split at h
  · cases h
  case h_2 base hbase => exact ⟨base, hbase, h⟩

theorem dictSet_subset {k : Nat} {v : List DateTime} :
    ∀ {d : List (Nat × List DateTime)} {p : Nat × List DateTime},
      p ∈ dictSet k v d → p = (k, v) ∨ p ∈ d := by
  intro d
  induction d with
  | nil =>
    intro p hp
    rcases List.mem_singleton.mp hp with h
    exact Or.inl h
  | cons q rest ih =>
    intro p hp
    obtain ⟨k0, v0⟩ := q
    unfold dictSet at hp
    split at hp
    · rcases List.mem_cons.mp hp with h | h
      · exact Or.inl h
      · exact Or.inr (List.mem_cons_of_mem _ h)
    · rcases List.mem_cons.mp hp with h | h
      · exact Or.inr (h ▸ List.mem_cons_self _ _)
      · rcases ih h with h2 | h2
        · exact Or.inl h2
        · exact Or.inr (List.mem_cons_of_mem _ h2)

theorem mem_map_fst_dictSet {k a : Nat} {v : List DateTime} :
    ∀ {d : List (Nat × List DateTime)},
      a ∈ (dictSet k v d).map Prod.fst ↔ a = k ∨ a ∈ d.map Prod.fst := by
  intro d
  induction d with
  | nil => simp [dictSet, eq_comm]
  | cons q rest ih =>
    obtain ⟨k0, v0⟩ := q
    unfold dictSet
    split
    case isTrue he => subst he; simp [eq_comm]
    case isFalse he =>
      simp only [List.map_cons, List.mem_cons, ih]
      tauto

theorem nodup_map_fst_dictSet {k : Nat} {v : List DateTime} :
    ∀ {d : List (Nat × List DateTime)},
      (d.map Prod.fst).Nodup → ((dictSet k v d).map Prod.fst).Nodup := by
  intro d
  induction d with
  | nil => simp [dictSet]
  | cons q rest ih =>
    obtain ⟨k0, v0⟩ := q
    intro hn
    simp only [List.map_cons, List.nodup_cons] at hn
    unfold dictSet
    split
    case isTrue he =>
      subst he
      simpa [List.nodup_cons] using hn
    case isFalse he =>
      simp only [List.map_cons, List.nodup_cons]
      refine ⟨fun hmem => ?_, ih hn.2⟩
      rcases mem_map_fst_dictSet.mp hmem with h | h
      · exact he h
      · exact hn.1 h

theorem getTimeslotsLoop_ok {remote : Nat → Nat → HttpResp} {before : Option String}
    {limit : Nat} :
    ∀ (ids : List Nat) (acc : List (Nat × List DateTime)) (tr0 : List Event)
      {d : List (Nat × List DateTime)} {tr : List Event},
      getTimeslotsLoop remote before limit ids acc tr0 = .ok (d, tr) →
      tr = tr0 ++ ids.flatMap (fun l => [Event.fetch l, Event.sleep]) ∧
      (∀ p ∈ d, p ∈ acc ∨ fetchFiltered (remote p.1 limit) before = .ok p.2) ∧
      (∀ a, a ∈ d.map Prod.fst ↔ a ∈ acc.map Prod.fst ∨ a ∈ ids) ∧
      ((acc.map Prod.fst).Nodup → (d.map Prod.fst).Nodup) := by
  intro ids
  induction ids with
  | nil =>
    intro acc tr0 d tr h
    cases h
    refine ⟨by simp, fun p hp => Or.inl hp, fun a => by simp, fun h => h⟩
  | cons lid rest ih =>
    intro acc tr0 d tr h
    unfold getTimeslotsLoop at h
    split at h
    · cases h
    case h_2 timeslots hfetch =>
      obtain ⟨htr, hentry, hkeys, hnodup⟩ :=
        ih (dictSet lid timeslots acc) (tr0 ++ [Event.fetch lid, Event.sleep]) h
      refine ⟨by simpa [List.flatMap_cons] using htr, ?_, ?_, ?_⟩
      · intro p hp
        rcases hentry p hp with h2 | h2
        · rcases dictSet_subset h2 with h3 | h3
          · exact Or.inr (by rw [h3]; exact hfetch)
          · exact Or.inl h3
        · exact Or.inr h2
      · intro a
        rw [hkeys a, mem_map_fst_dictSet]
        simp only [List.mem_cons]
        tauto
      · exact fun hn => hnodup (nodup_map_fst_dictSet hn)

theorem get_ids_ok {remote : Nat → Nat → HttpResp} {location_ids : List Nat}
    {before : Option String} {limit : Nat} {d : List (Nat × List DateTime)}
    {tr : List Event}
    (h : get_timeslots_for_location_ids remote location_ids before limit = .ok (d, tr)) :
    tr = location_ids.flatMap (fun l => [Event.fetch l, Event.sleep]) ∧
    (∀ p ∈ d, fetchFiltered (remote p.1 limit) before = .ok p.2) ∧
    (∀ a, a ∈ d.map Prod.fst ↔ a ∈ location_ids) ∧
    (d.map Prod.fst).Nodup := by
  obtain ⟨htr, hentry, hkeys, hnodup⟩ := getTimeslotsLoop_ok location_ids [] [] h
  refine ⟨by simpa using htr, ?_, ?_, hnodup (by simp)⟩
  · intro p hp
    rcases hentry p hp with h2 | h2
    · cases h2
    · exact h2
  · intro a
    rw [hkeys a]
    simp

theorem count_fetch_flatMap (a : Nat) :
    ∀ ids : List Nat,
      (ids.flatMap (fun l => [Event.fetch l, Event.sleep])).count (Event.fetch a) =
        ids.count a := by
  intro ids
  induction ids with
  | nil => rfl
  | cons lid rest ih =>
    rw [List.flatMap_cons, List.count_append, ih, List.count_cons]
    by_cases he : lid = a
    · subst he
      simp [List.count_cons]
      omega
    · have : Event.fetch lid ≠ Event.fetch a := fun hc => he (by cases hc; rfl)
      simp [List.count_cons, this, he]

theorem count_sleep_flatMap :
    ∀ ids : List Nat,
      (ids.flatMap (fun l => [Event.fetch l, Event.sleep])).count Event.sleep =
        ids.length := by
  intro ids
  induction ids with
  | nil => rfl
  | cons lid rest ih =>
    rw [List.flatMap_cons, List.count_append, ih]
    simp [List.count_cons]
    omega

theorem genBlocks_ok_iff (mapping : List (Nat × String)) :
    ∀ ats : List (Nat × List DateTime),
      (∃ bl, genBlocks mapping ats = .ok bl) ↔
        (∀ p ∈ ats, p.2 ≠ [] → ∃ label, lookupKey p.1 mapping = some label) := by
  intro ats
  induction ats with
  | nil => simp [genBlocks]
  | cons q rest ih =>
    obtain ⟨lid, ts⟩ := q
    constructor
    · rintro ⟨bl, hbl⟩ p hp hne
      unfold genBlocks at hbl
      split at hbl
      case isTrue hlen =>
        split at hbl
        · cases hbl
        case h_2 label hlabel =>
          split at hbl
          · cases hbl
          case h_2 more hmore =>
            rcases List.mem_cons.mp hp with h0 | h0
            · subst h0
              exact ⟨label, hlabel⟩
            · exact (ih.mp ⟨more, hmore⟩) p h0 hne
      case isFalse hlen =>
        rcases List.mem_cons.mp hp with h0 | h0
        · subst h0
          exact absurd (List.length_eq_zero.mp (show ts.length = 0 by omega)) hne
        · exact (ih.mp ⟨bl, hbl⟩) p h0 hne
    · intro hall
      by_cases hlen : ts.length > 0
      · obtain ⟨label, hlabel⟩ :=
          hall (lid, ts) (List.mem_cons_self _ _)
            (List.ne_nil_of_length_pos hlen)
        obtain ⟨more, hmore⟩ :=
          ih.mpr (fun p hp hne => hall p (List.mem_cons_of_mem _ hp) hne)
        exact ⟨locationBlock label lid ts :: more, by
          unfold genBlocks
          rw [if_pos hlen, hlabel, hmore]⟩
      · obtain ⟨bl, hbl⟩ :=
          ih.mpr (fun p hp hne => hall p (List.mem_cons_of_mem _ hp) hne)
        exact ⟨bl, by unfold genBlocks; rw [if_neg hlen]; exact hbl⟩

theorem genBlocks_error (mapping : List (Nat × String)) :
    ∀ (ats : List (Nat × List DateTime)) (e : ScrapeError),
      genBlocks mapping ats = .error e →
      ∃ p ∈ ats, p.2 ≠ [] ∧ lookupKey p.1 mapping = none ∧ e = .keyError p.1 := by
  intro ats
  induction ats with
  | nil =>
    intro e h
    cases h
  | cons q rest ih =>
    obtain ⟨lid, ts⟩ := q
    intro e h
    unfold genBlocks at h
    split at h
    case isTrue hlen =>
      split at h
      case h_1 hlabel =>
        cases h
        exact ⟨(lid, ts), List.mem_cons_self _ _,
          List.ne_nil_of_length_pos hlen, hlabel, rfl⟩
      case h_2 label hlabel =>
        split at h
        case h_1 e0 herr =>
          cases h
          obtain ⟨p, hp, hrest⟩ := ih e herr
          exact ⟨p, List.mem_cons_of_mem _ hp, hrest⟩
        case h_2 => cases h
    case isFalse hlen =>
      obtain ⟨p, hp, hrest⟩ := ih e h
      exact ⟨p, List.mem_cons_of_mem _ hp, hrest⟩

theorem genBlocks_all_empty (mapping : List (Nat × String)) :
    ∀ ats : List (Nat × List DateTime),
      (∀ p ∈ ats, p.2 = []) → genBlocks mapping ats = .ok [] := by
  intro ats
  induction ats with
  | nil => intro _; rfl
  | cons q rest ih =>
    obtain ⟨lid, ts⟩ := q
    intro hall
    have hts : ts = [] := hall (lid, ts) (List.mem_cons_self _ _)
    unfold genBlocks
    rw [if_neg (by simp [hts])]
    exact ih (fun p hp => hall p (List.mem_cons_of_mem _ hp))

theorem generate_eq_of_blocks {mapping : List (Nat × String)}
    {ats : List (Nat × List DateTime)} {bl : List String}
    (hgb : genBlocks mapping ats = .ok bl) (silent : Bool) :
    generate_notification_texts mapping ats silent =
      if (bannerLine :: bl).length = 1 then
        if silent then .ok []
        else .ok ((bannerLine :: bl) ++ ["No open timeslots found!"])
      else .ok (bannerLine :: bl) := by
  conv_lhs => unfold generate_notification_texts
  rw [hgb]

theorem generate_eq_of_error {mapping : List (Nat × String)}
    {ats : List (Nat × List DateTime)} {e : ScrapeError}
    (hgb : genBlocks mapping ats = .error e) (silent : Bool) :
    generate_notification_texts mapping ats silent = .error e := by
  conv_lhs => unfold generate_notification_texts
  rw [hgb]

theorem generate_ok_iff (mapping : List (Nat × String))
    (ats : List (Nat × List DateTime)) (silent : Bool) :
    (∃ l, generate_notification_texts mapping ats silent = .ok l) ↔
    (∃ bl, genBlocks mapping ats = .ok bl) := by
  cases hgb : genBlocks mapping ats with
  | error e =>
    simp [generate_eq_of_error hgb silent]
  | ok bl =>
    simp only [generate_eq_of_blocks hgb silent]
    constructor
    · exact fun _ => ⟨bl, rfl⟩
    · intro _
      split
      · split
        · exact ⟨[], rfl⟩
        · exact ⟨(bannerLine :: bl) ++ ["No open timeslots found!"], rfl⟩
      · exact ⟨bannerLine :: bl, rfl⟩

theorem generate_error_iff (mapping : List (Nat × String))
    (ats : List (Nat × List DateTime)) (silent : Bool) (e : ScrapeError) :
    generate_notification_texts mapping ats silent = .error e ↔
    genBlocks mapping ats = .error e := by
  cases hgb : genBlocks mapping ats with
  | error e0 => simp [generate_eq_of_error hgb silent]
  | ok bl =>
    simp only [generate_eq_of_blocks hgb silent]
    constructor
    · intro h
      split at h
      · split at h
        · cases h
        · cases h
      · cases h
    · intro h
      cases h

theorem pollRounds_step (remoteAt : Nat → Nat → Nat → HttpResp)
    (location_ids : List Nat) (before : Option String) (limit : Nat)
    (i fuel : Nat) (d : List (Nat × List DateTime)) (tr : List Event)
    (h : get_timeslots_for_location_ids (remoteAt i) location_ids before limit =
      .ok (d, tr)) :
    pollRounds remoteAt location_ids before limit (fuel + 1) i =
      if anyNonEmpty d then .ok (some (i + 1, d))
      else pollRounds remoteAt location_ids before limit fuel (i + 1) := by
  conv_lhs => unfold pollRounds
  rw [h]

/-- C1: if round 1 of the main polling loop yields an empty timeslot list
for every requested location and round 2 yields a non-empty list for at
least one location, the loop performs exactly 2 rounds (2 calls to
get_timeslots_for_location_ids) and the PollResult passed on is round 2's,
round 1's being discarded entirely. -/
theorem poll_loop_two_rounds (remoteAt : Nat → Nat → Nat → HttpResp)
    (location_ids : List Nat) (before : Option String) (limit fuel : Nat)
    (d1 d2 : List (Nat × List DateTime)) (tr1 tr2 : List Event)
    (h1 : get_timeslots_for_location_ids (remoteAt 0) location_ids before limit =
      .ok (d1, tr1))
    (h1empty : ∀ p ∈ d1, p.2 = [])
    (h2 : get_timeslots_for_location_ids (remoteAt 1) location_ids before limit =
      .ok (d2, tr2))
    (h2found : ∃ p ∈ d2, p.2 ≠ []) :
    pollRounds remoteAt location_ids before limit (fuel + 2) 0 = .ok (some (2, d2)) := by
  have ha1 : anyNonEmpty d1 = false := by
    simp only [anyNonEmpty, List.any_eq_false]
    intro p hp
    simp [h1empty p hp]
  have ha2 : anyNonEmpty d2 = true := by
    obtain ⟨p, hp, hne⟩ := h2found
    simp only [anyNonEmpty, List.any_eq_true]
    refine ⟨p, hp, ?_⟩
    simpa [List.isEmpty_iff] using hne
  have e1 := pollRounds_step remoteAt location_ids before limit 0 (fuel + 1) d1 tr1 h1
  have e2 := pollRounds_step remoteAt location_ids before limit 1 fuel d2 tr2 h2
  rw [show fuel + 2 = (fuel + 1) + 1 from rfl, e1, ha1, if_neg (by simp), e2, ha2,
    if_pos rfl]

/-- C1 witness: a concrete service giving an empty round then a round with
one slot makes the loop stop after exactly 2 rounds with round 2's result. -/
theorem poll_loop_two_rounds_witness :
    pollRounds
      (fun i _ _ => if i = 0 then ⟨200, []⟩ else ⟨200, [⟨"2025-01-02T13:30"⟩]⟩)
      [7] none 10 (0 + 2) 0 = .ok (some (2, [(7, [⟨2025, 1, 2, 13, 30⟩])])) :=
  poll_loop_two_rounds
    (fun i _ _ => if i = 0 then ⟨200, []⟩ else ⟨200, [⟨"2025-01-02T13:30"⟩]⟩)
    [7] none 10 0 [(7, [])] [(7, [⟨2025, 1, 2, 13, 30⟩])]
    [Event.fetch 7, Event.sleep] [Event.fetch 7, Event.sleep]
    rfl (by decide) rfl (by decide)

/-- C2 counterexample: with silent=true and an all-empty PollResult the
code returns the empty list of text blocks, not a single banner block as
the claim states. -/
theorem silent_empty_counterexample :
    generate_notification_texts [] [(5446, [])] true = .ok [] ∧
    generate_notification_texts [] [(5446, [])] true ≠ .ok [bannerLine] := by
  refine ⟨rfl, fun h => ?_⟩
  rw [show generate_notification_texts [] [(5446, [])] true = .ok [] from rfl] at h
  cases Except.ok.inj h

/-- C2 amended: with silent=true and an all-empty PollResult,
generate_notification_texts returns the empty sequence (zero blocks, the
banner suppressed as well); with silent=false it returns exactly two
blocks, the banner and one explanatory line. -/
theorem silent_empty_blocks (mapping : List (Nat × String))
    (ats : List (Nat × List DateTime)) (hempty : ∀ p ∈ ats, p.2 = []) :
    generate_notification_texts mapping ats true = .ok [] ∧
    generate_notification_texts mapping ats false =
      .ok [bannerLine, "No open timeslots found!"] := by
  have hb := genBlocks_all_empty mapping ats hempty
  constructor
  · rw [generate_eq_of_blocks hb true]
    rfl
  · rw [generate_eq_of_blocks hb false]
    rfl

/-- C2 witness: the amended behaviour at a concrete all-empty PollResult. -/
theorem silent_empty_blocks_witness :
    generate_notification_texts [] [(5446, [])] true = .ok [] ∧
    generate_notification_texts [] [(5446, [])] false =
      .ok [bannerLine, "No open timeslots found!"] :=
  silent_empty_blocks [] [(5446, [])] (by decide)

/-- C3: cutoff filtering in get_timeslots_for_location_ids is exclusive at
the boundary: with a cutoff date supplied, a timeslot is kept iff it was
fetched and is strictly before the cutoff date at midnight; the timeslot
equal to the cutoff midnight is excluded; without a cutoff every fetched
timeslot is kept. -/
theorem cutoff_filter_exclusive (remote : Nat → Nat → HttpResp)
    (location_ids : List Nat) (b : String) (limit : Nat) (cutoff : DateTime)
    (d : List (Nat × List DateTime)) (tr : List Event)
    (hb : strptimeDate b = some cutoff)
    (hok : get_timeslots_for_location_ids remote location_ids (some b) limit =
      .ok (d, tr)) :
    (∀ p ∈ d, ∀ base, get_timeslots_for_location_id (remote p.1 limit) = .ok base →
      ((∀ t ∈ p.2, t ∈ base ∧ DateTime.ChronLt t cutoff) ∧
       (∀ t ∈ base, DateTime.ChronLt t cutoff → t ∈ p.2) ∧
       cutoff ∉ p.2)) ∧
    (∀ (d0 : List (Nat × List DateTime)) (tr0 : List Event),
      get_timeslots_for_location_ids remote location_ids none limit = .ok (d0, tr0) →
      ∀ p ∈ d0, get_timeslots_for_location_id (remote p.1 limit) = .ok p.2) := by
  have hcutValid : cutoff.Valid := strptimeDate_valid hb
  constructor
  · intro p hp base hbase
    obtain ⟨-, hentry, -, -⟩ := get_ids_ok hok
    obtain ⟨base2, hbase2, hfil⟩ := fetchFiltered_ok (hentry p hp)
    have hbb : base2 = base := Except.ok.inj (hbase2.symm.trans hbase)
    subst hbb
    rw [filterBefore_some hb base2] at hfil
    have hval : p.2 = base2.filter (fun t => decide (t.key < cutoff.key)) :=
      (Except.ok.inj hfil).symm
    have hmem : ∀ t, t ∈ p.2 ↔ t ∈ base2 ∧ t.key < cutoff.key := by
      intro t
      rw [hval, List.mem_filter]
      simp
    have hvalid := get_id_mem_valid hbase2
    refine ⟨?_, ?_, ?_⟩
    · intro t ht
      obtain ⟨hin, hlt⟩ := (hmem t).mp ht
      exact ⟨hin, (DateTime.key_lt_iff_chronLt (hvalid t hin) hcutValid).mp hlt⟩
    · intro t hin hlt
      exact (hmem t).mpr
        ⟨hin, (DateTime.key_lt_iff_chronLt (hvalid t hin) hcutValid).mpr hlt⟩
    · intro hcut
      obtain ⟨-, hlt⟩ := (hmem cutoff).mp hcut
      omega
  · intro d0 tr0 hok0 p hp
    obtain ⟨-, hentry, -, -⟩ := get_ids_ok hok0
    obtain ⟨base, hbase, hfil⟩ := fetchFiltered_ok (hentry p hp)
    rw [filterBefore_none base] at hfil
    rw [Except.ok.inj hfil] at hbase
    exact hbase

/-- C3 witness: with cutoff "2024-03-02", the slot at exactly 2024-03-02
00:00 is dropped and the slot at 2024-03-01 23:59 is kept. -/
theorem cutoff_filter_exclusive_witness :
    (∀ p ∈ [((3 : Nat), [(⟨2024, 3, 1, 23, 59⟩ : DateTime)])], ∀ base,
      get_timeslots_for_location_id
        ((fun _ _ => (⟨200, [⟨"2024-03-02T00:00"⟩, ⟨"2024-03-01T23:59"⟩]⟩ : HttpResp))
          p.1 10) = .ok base →
      ((∀ t ∈ p.2, t ∈ base ∧ DateTime.ChronLt t ⟨2024, 3, 2, 0, 0⟩) ∧
       (∀ t ∈ base, DateTime.ChronLt t ⟨2024, 3, 2, 0, 0⟩ → t ∈ p.2) ∧
       (⟨2024, 3, 2, 0, 0⟩ : DateTime) ∉ p.2)) ∧
    (∀ (d0 : List (Nat × List DateTime)) (tr0 : List Event),
      get_timeslots_for_location_ids
        (fun _ _ => ⟨200, [⟨"2024-03-02T00:00"⟩, ⟨"2024-03-01T23:59"⟩]⟩)
        [3] none 10 = .ok (d0, tr0) →
      ∀ p ∈ d0, get_timeslots_for_location_id
        ((fun _ _ => (⟨200, [⟨"2024-03-02T00:00"⟩, ⟨"2024-03-01T23:59"⟩]⟩ : HttpResp))
          p.1 10) = .ok p.2) :=
  cutoff_filter_exclusive
    (fun _ _ => ⟨200, [⟨"2024-03-02T00:00"⟩, ⟨"2024-03-01T23:59"⟩]⟩)
    [3] "2024-03-02" 10 ⟨2024, 3, 2, 0, 0⟩
    [(3, [⟨2024, 3, 1, 23, 59⟩])] [Event.fetch 3, Event.sleep] rfl rfl

/-- C4: get_timeslots_for_location_id returns the parsed timestamps with
no duplicates (each present timestamp occurring exactly once) and sorted
ascending by the chronological key. -/
theorem fetch_dedup_sorted (resp : HttpResp) (parsed ts : List DateTime)
    (hparse : parseTimeslots resp.body = .ok parsed)
    (hok : get_timeslots_for_location_id resp = .ok ts) :
    ts.Nodup ∧ ts.Chain' DateTime.leKey ∧ (∀ t, t ∈ ts ↔ t ∈ parsed) ∧
    (∀ t ∈ ts, ts.count t = 1) := by
  obtain ⟨-, parsed2, hp2, hts⟩ := get_id_ok hok
  have hpp : parsed2 = parsed := Except.ok.inj (hp2.symm.trans hparse)
  subst hpp
  subst hts
  refine ⟨sortedDedup_nodup parsed2, (sortedDedup_sorted parsed2).chain',
    fun t => sortedDedup_mem, fun t ht => List.count_eq_one_of_mem (sortedDedup_nodup parsed2) ht⟩

/-- C4 witness: two identical records and one earlier record come back as
two distinct sorted timeslots. -/
theorem fetch_dedup_sorted_witness :
    ([⟨2024, 3, 1, 9, 0⟩, ⟨2024, 3, 2, 10, 0⟩] : List DateTime).Nodup ∧
    ([⟨2024, 3, 1, 9, 0⟩, ⟨2024, 3, 2, 10, 0⟩] : List DateTime).Chain' DateTime.leKey ∧
    (∀ t, t ∈ ([⟨2024, 3, 1, 9, 0⟩, ⟨2024, 3, 2, 10, 0⟩] : List DateTime) ↔
      t ∈ ([⟨2024, 3, 2, 10, 0⟩, ⟨2024, 3, 1, 9, 0⟩, ⟨2024, 3, 2, 10, 0⟩] : List DateTime)) ∧
    (∀ t ∈ ([⟨2024, 3, 1, 9, 0⟩, ⟨2024, 3, 2, 10, 0⟩] : List DateTime),
      ([⟨2024, 3, 1, 9, 0⟩, ⟨2024, 3, 2, 10, 0⟩] : List DateTime).count t = 1) :=
  fetch_dedup_sorted
    ⟨200, [⟨"2024-03-02T10:00"⟩, ⟨"2024-03-01T09:00"⟩, ⟨"2024-03-02T10:00"⟩]⟩
    [⟨2024, 3, 2, 10, 0⟩, ⟨2024, 3, 1, 9, 0⟩, ⟨2024, 3, 2, 10, 0⟩]
    [⟨2024, 3, 1, 9, 0⟩, ⟨2024, 3, 2, 10, 0⟩] rfl rfl

/-- C5: for every value the random source can produce (an integer in
[-10, 10]), the jittered delay with base 2 lies in the closed interval
[1, 3]. -/
theorem delay_in_range (r : ℤ) (hlo : -10 ≤ r) (hhi : r ≤ 10) :
    1 ≤ delay r ∧ delay r ≤ 3 := by
  have e : delay r = 2 + (r : ℚ) / 10 := by
    unfold delay REQUEST_DELAY
    norm_num
  have hr1 : (-10 : ℚ) ≤ (r : ℚ) := by exact_mod_cast hlo
  have hr2 : (r : ℚ) ≤ 10 := by exact_mod_cast hhi
  have d1 : (-1 : ℚ) ≤ (r : ℚ) / 10 := by
    rw [le_div_iff₀ (by norm_num : (0 : ℚ) < 10)]
    linarith
  have d2 : (r : ℚ) / 10 ≤ 1 := by
    rw [div_le_iff₀ (by norm_num : (0 : ℚ) < 10)]
    linarith
  rw [e]
  constructor
  · linarith
  · linarith

/-- C5 witness: the delay at the concrete draw 3 lies in [1, 3]. -/
theorem delay_in_range_witness : 1 ≤ delay 3 ∧ delay 3 ≤ 3 :=
  delay_in_range 3 (by decide) (by decide)

/-- C6: end-to-end scenario: with location ids [5446, 5020], round 1 empty
for both and round 2 returning "2024-03-01T09:00" for 5446 only, the loop
stops after round 2 and the notification is the banner plus a single block
for 5446 headed "Location A (City, ST) (5446)" with the one indented line
"March 1, 2024 (Fri) @ 9:00 AM", and no block for 5020. -/
theorem end_to_end_scenario :
    pollRounds scenarioRemote [5446, 5020] none 10 2 0 =
      .ok (some (2, [(5446, [⟨2024, 3, 1, 9, 0⟩]), (5020, [])])) ∧
    generate_notification_texts [(5446, "Location A (City, ST)")]
      [(5446, [⟨2024, 3, 1, 9, 0⟩]), (5020, [])] false =
      .ok [bannerLine,
        "Location A (City, ST) (5446)\n    March 1, 2024 (Fri) @ 9:00 AM"] :=
  ⟨rfl, rfl⟩

/-- C7: get_timeslots_for_location_ids queries the locations in exactly the
caller-supplied order, with one jittered sleep after every location's
fetch, including the last one; the trace is exactly fetch-sleep pairs in
the supplied order. -/
theorem fetch_order_and_sleeps (remote : Nat → Nat → HttpResp)
    (location_ids : List Nat) (before : Option String) (limit : Nat)
    (d : List (Nat × List DateTime)) (tr : List Event)
    (hok : get_timeslots_for_location_ids remote location_ids before limit =
      .ok (d, tr)) :
    tr = location_ids.flatMap (fun l => [Event.fetch l, Event.sleep]) :=
  (get_ids_ok hok).1

/-- C7 witness: two locations produce the trace fetch 1, sleep, fetch 2,
sleep. -/
theorem fetch_order_and_sleeps_witness :
    [Event.fetch 1, Event.sleep, Event.fetch 2, Event.sleep] =
      [1, 2].flatMap (fun l => [Event.fetch l, Event.sleep]) :=
  fetch_order_and_sleeps (fun _ _ => ⟨200, []⟩) [1, 2] none 10 [(1, []), (2, [])]
    [Event.fetch 1, Event.sleep, Event.fetch 2, Event.sleep] rfl

/-- C9: generate_notification_texts succeeds iff every location with a
non-empty timeslot list has a mapping entry — so the mapping is never
consulted for a location with an empty list — and any failure is the
key-lookup error of such an unmapped location. -/
theorem formatter_key_errors (mapping : List (Nat × String))
    (ats : List (Nat × List DateTime)) (silent : Bool) :
    ((∃ l, generate_notification_texts mapping ats silent = .ok l) ↔
      ∀ p ∈ ats, p.2 ≠ [] → ∃ label, lookupKey p.1 mapping = some label) ∧
    (∀ e, generate_notification_texts mapping ats silent = .error e →
      ∃ p ∈ ats, p.2 ≠ [] ∧ lookupKey p.1 mapping = none ∧ e = .keyError p.1) := by
  constructor
  · rw [generate_ok_iff mapping ats silent]
    exact genBlocks_ok_iff mapping ats
  · intro e he
    exact genBlocks_error mapping ats e ((generate_error_iff mapping ats silent e).mp he)

/-- C9 witness: a non-empty location absent from the mapping makes the
formatter raise exactly its key error, while empty locations need no
mapping entry. -/
theorem formatter_key_errors_witness :
    ∃ p ∈ ([(1, [⟨2024, 1, 1, 0, 0⟩]), (2, [])] : List (Nat × List DateTime)),
      p.2 ≠ [] ∧ lookupKey p.1 [] = none ∧
      (ScrapeError.keyError 1) = .keyError p.1 :=
  (formatter_key_errors [] [(1, [⟨2024, 1, 1, 0, 0⟩]), (2, [])] true).2
    (.keyError 1) rfl

/-- C10: with duplicate location ids, the returned dict has exactly one
entry per distinct id, holding that id's (deterministic, hence last) fetch
result, while the trace shows one fetch per occurrence in the list and one
sleep per occurrence. -/
theorem duplicate_ids_one_entry (remote : Nat → Nat → HttpResp)
    (location_ids : List Nat) (before : Option String) (limit : Nat)
    (d : List (Nat × List DateTime)) (tr : List Event)
    (hok : get_timeslots_for_location_ids remote location_ids before limit =
      .ok (d, tr)) :
    (d.map Prod.fst).Nodup ∧
    (∀ a, a ∈ d.map Prod.fst ↔ a ∈ location_ids) ∧
    (∀ p ∈ d, fetchFiltered (remote p.1 limit) before = .ok p.2) ∧
    (∀ a, tr.count (Event.fetch a) = location_ids.count a) ∧
    tr.count Event.sleep = location_ids.length := by
  obtain ⟨htr, hentry, hkeys, hnodup⟩ := get_ids_ok hok
  subst htr
  exact ⟨hnodup, hkeys, hentry,
    fun a => count_fetch_flatMap a location_ids, count_sleep_flatMap location_ids⟩

/-- C10 witness: the id list [1, 1] yields a single dict entry for 1 but
two fetches and two sleeps in the trace. -/
theorem duplicate_ids_one_entry_witness :
    (([(1, [])] : List (Nat × List DateTime)).map Prod.fst).Nodup ∧
    (∀ a, a ∈ ([(1, [])] : List (Nat × List DateTime)).map Prod.fst ↔ a ∈ [1, 1]) ∧
    (∀ p ∈ ([(1, [])] : List (Nat × List DateTime)),
      fetchFiltered ((fun _ _ => (⟨200, []⟩ : HttpResp)) p.1 10) none = .ok p.2) ∧
    (∀ a, ([Event.fetch 1, Event.sleep, Event.fetch 1, Event.sleep]).count
      (Event.fetch a) = [1, 1].count a) ∧
    ([Event.fetch 1, Event.sleep, Event.fetch 1, Event.sleep]).count Event.sleep =
      [1, 1].length :=
  duplicate_ids_one_entry (fun _ _ => ⟨200, []⟩) [1, 1] none 10 [(1, [])]
    [Event.fetch 1, Event.sleep, Event.fetch 1, Event.sleep] rfl
